import Mathlib

/-!
Verification of the ext-service routing and middleware core.

The definitions below are a shallow embedding of the repository sources:
`src/ext.py` (router and route-template compiler), `src/core/auth.py`
(token issue/verify and role guards), `src/core/rate_limit.py`
(fixed-window rate limiter over a shared counter store) and
`src/core/cache.py` (response cache keyed by a request fingerprint).
-/

namespace ExtService

/-! ## Auth guard (`src/core/auth.py`) -/

/-- Claim payloads as built by `create_token`:
`payload = (sub = str(user_id), iat = now, exp = now + JWT_EXPIRATION)` plus an
optional `roles` entry and the extra claims.  The extra claims are kept in a
separate field; the source merges them into the same dict, so an extra claim
could shadow a reserved key there — that collision is outside this model. -/
structure JWTPayload where
  sub : String
  iat : Int
  exp : Int
  roles : Option (List String)
  extra : List (String × String)
  deriving DecidableEq

/-- The HMAC signature produced by `jwt.encode` with a shared secret is
idealized as the injective pairing of the secret with the signed payload;
`jwt.decode` accepts a signature exactly when the same secret produced it.
Collision freedom of the MAC is assumed rather than computed. -/
def jwtSign (secret : String) (p : JWTPayload) : String × JWTPayload :=
  (secret, p)

/-- A token in transit: either a well-formed signed claim set or a string
that does not parse as a JWT at all (any format failure). -/
inductive Token where
  | signed (payload : JWTPayload) (sig : String × JWTPayload)
  | malformed (raw : String)
  deriving DecidableEq

/-- `create_token(user_id, roles, **extra_claims)`.  `str(user_id)` is the
`sub` claim (modelled with the caller passing the string form); a `roles`
entry is added only when the list is truthy, i.e. present and non-empty. -/
def create_token (secret : String) (expiration : Int) (now : Int)
    (user_id : String) (roles : Option (List String))
    (extra_claims : List (String × String)) : Token :=
  let payload : JWTPayload :=
    ⟨user_id, now, now + expiration,
      match roles with
      | some l => if l.isEmpty then none else some l
      | none => none,
      extra_claims⟩
  Token.signed payload (jwtSign secret payload)

/-- The two failure classes of `verify_token`: `jwt.ExpiredSignatureError`
and `jwt.InvalidTokenError`. -/
inductive TokenError where
  | expired
  | invalid
  deriving DecidableEq

/-- Both failure branches of `verify_token` raise `exc.HTTPUnauthorized`,
i.e. HTTP status 401. -/
def tokenErrorStatus : TokenError → Nat :=
  fun _ => 401

/-- `verify_token`: `jwt.decode` first rejects malformed input and bad
signatures (`InvalidTokenError`), then rejects tokens whose expiry claim is
not in the future (`ExpiredSignatureError` when `exp ≤ now`). -/
def verify_token (secret : String) (now : Int) (tok : Token) :
    Except TokenError JWTPayload :=
  match tok with
  | Token.malformed _ => Except.error TokenError.invalid
  | Token.signed p s =>
      if s = jwtSign secret p then
        if p.exp ≤ now then Except.error TokenError.expired else Except.ok p
      else Except.error TokenError.invalid

/-- The value of the `Authorization` request header: either the bearer
convention `Bearer <token>` or some other string. -/
inductive AuthHeaderVal where
  | bearer (tok : Token)
  | other (s : String)
  deriving DecidableEq

/-- The parts of a request that `extract_token_from_request` reads: the
`Authorization` header and the `token` query parameter. -/
structure AuthReq where
  authorization : Option AuthHeaderVal
  tokenParam : Option Token
  deriving DecidableEq

/-- `extract_token_from_request`: take the token after the `Bearer ` marker
when the header carries one, else fall back to the `token` parameter. -/
def extract_token_from_request (req : AuthReq) : Option Token :=
  match req.authorization with
  | some (AuthHeaderVal.bearer t) => some t
  | _ => req.tokenParam

/-- What a guarded handler produces: a successful response or a raised
`webob` HTTP error with its status and message. -/
inductive HandlerOutcome where
  | response (status : Nat) (body : String)
  | httpError (status : Nat) (error : String)
  deriving DecidableEq

/-- `require_auth`: missing token → 401; verification failure → 401 (the
error raised inside `verify_token`); on success the payload is attached to
the request (modelled by passing it to the wrapped handler). -/
def require_auth (secret : String) (now : Int)
    (func : AuthReq → JWTPayload → HandlerOutcome) (req : AuthReq) :
    HandlerOutcome :=
  match extract_token_from_request req with
  | none => HandlerOutcome.httpError 401 "Authentication required"
  | some tok =>
      match verify_token secret now tok with
      | Except.error TokenError.expired =>
          HandlerOutcome.httpError 401 "Token expired"
      | Except.error TokenError.invalid =>
          HandlerOutcome.httpError 401 "Invalid token"
      | Except.ok payload => func req payload

/-- `require_roles(roles)`: composes with `require_auth`; reads
`user_roles = req.user.get("roles", [])` and raises 403 unless
`any(role in user_roles for role in roles)`. -/
def require_roles (roles : List String) (secret : String) (now : Int)
    (func : AuthReq → JWTPayload → HandlerOutcome) (req : AuthReq) :
    HandlerOutcome :=
  require_auth secret now
    (fun r payload =>
      let user_roles := payload.roles.getD []
      if roles.any (fun role => user_roles.contains role) then func r payload
      else HandlerOutcome.httpError 403 "Insufficient permissions")
    req

/-! ## Responses and headers (webob `Response`) -/

/-- The response fields the middleware reads and writes. -/
structure Resp where
  status : Nat
  body : String
  content_type : String
  headers : List (String × String)
  deriving DecidableEq

/-- `response.headers[k] = v`: overwrite an existing entry or append. -/
def setHeader (hs : List (String × String)) (k v : String) :
    List (String × String) :=
  match hs with
  | [] => [(k, v)]
  | (k0, v0) :: rest =>
      if k0 = k then (k, v) :: rest else (k0, v0) :: setHeader rest k v

/-- Read a response header: the value at the first entry with that name. -/
def getHeader (hs : List (String × String)) (k : String) : Option String :=
  match hs with
  | [] => none
  | (k0, v0) :: rest => if k0 = k then some v0 else getHeader rest k

/-! ## Rate limiter (`src/core/rate_limit.py`)

The shared store is modelled at the single key
`ratelimit:{key_prefix}:{client_id}` of the fixed client identity the
claims speak about; redis expiry is an absolute deadline checked against
the current time. -/

/-- One redis counter: its value and, when `EXPIRE` has been applied, the
absolute time at which the key vanishes (`none` = no expiry, redis ttl -1). -/
structure RedisEntry where
  count : Nat
  expireAt : Option Int
  deriving DecidableEq

/-- A key is alive until its deadline. -/
def entryAlive (now : Int) (e : RedisEntry) : Bool :=
  match e.expireAt with
  | none => true
  | some t => decide (now < t)

/-- `int(count) if count else 0` after `GET`: an expired or missing key
reads as nil. -/
def redisGetCount (now : Int) (st : Option RedisEntry) : Nat :=
  match st with
  | none => 0
  | some e => if entryAlive now e then e.count else 0

/-- Redis `TTL`: -2 for a missing (or expired) key, -1 for a key with no
expiry, else the remaining seconds. -/
def redisTTL (now : Int) (st : Option RedisEntry) : Int :=
  match st with
  | none => -2
  | some e =>
      match e.expireAt with
      | none => if entryAlive now e then -1 else -2
      | some t => if now < t then t - now else -2

/-- Redis `INCR`: missing or expired keys restart at 1 with no expiry. -/
def redisIncr (now : Int) (st : Option RedisEntry) : Option RedisEntry :=
  match st with
  | none => some ⟨1, none⟩
  | some e => if entryAlive now e then some ⟨e.count + 1, e.expireAt⟩
              else some ⟨1, none⟩

/-- Redis `EXPIRE key period`: set the deadline of a live key. -/
def redisExpire (now : Int) (period : Nat) (st : Option RedisEntry) :
    Option RedisEntry :=
  match st with
  | none => none
  | some e => if entryAlive now e then some ⟨e.count, some (now + period)⟩
              else st

/-- What one pass through the `rate_limit` wrapper produced: the response
returned outward, the state of the counter key, and whether the wrapped
handler ran. -/
structure RLOutcome where
  resp : Resp
  store : Option RedisEntry
  innerCalled : Bool
  deriving DecidableEq

/-- One request through the `rate_limit(limit, period, key_prefix)` wrapper.
`enabled` is `settings.RATE_LIMIT_ENABLED`, `hasClient` is whether the
module-level redis client connected, `dflt` is `settings.RATE_LIMIT_DEFAULT`
(`rate_limit_value = limit or RATE_LIMIT_DEFAULT`, so a zero limit also
falls back), `innerResp` the response of the wrapped handler. -/
def rate_limit (enabled hasClient : Bool) (limit : Option Nat) (period : Nat)
    (dflt : Nat) (now : Int) (innerResp : Resp) (st : Option RedisEntry) :
    RLOutcome :=
  if !enabled || !hasClient then ⟨innerResp, st, true⟩
  else
    let rate_limit_value :=
      match limit with
      | some n => if n = 0 then dflt else n
      | none => dflt
    let current := redisGetCount now st
    if rate_limit_value ≤ current then
      let ttl := redisTTL now st
      let reset_time := if 0 < ttl then now + ttl else now + (period : Int)
      let retry : Int := if 0 < ttl then ttl else (period : Int)
      let hdrs :=
        setHeader (setHeader (setHeader (setHeader []
          "X-RateLimit-Limit" (toString rate_limit_value))
          "X-RateLimit-Remaining" "0")
          "X-RateLimit-Reset" (toString reset_time))
          "Retry-After" (toString retry)
      ⟨⟨429, "Rate limit exceeded", "application/json", hdrs⟩, st, false⟩
    else
      let st1 := redisIncr now st
      let st2 := if current = 0 then redisExpire now period st1 else st1
      let remaining := rate_limit_value - (current + 1)
      let ttl := redisTTL now st2
      let reset_time := if 0 < ttl then now + ttl else now + (period : Int)
      let hdrs :=
        setHeader (setHeader (setHeader innerResp.headers
          "X-RateLimit-Limit" (toString rate_limit_value))
          "X-RateLimit-Remaining" (toString remaining))
          "X-RateLimit-Reset" (toString reset_time)
      ⟨⟨innerResp.status, innerResp.body, innerResp.content_type, hdrs⟩,
        st2, true⟩

/-! ## Response cache (`src/core/cache.py`) -/

/-- A stored response: `{body, status, content_type, headers}` as serialized
by `cache_response` (serialization is modelled as always succeeding; the
responses of this model are plain structured data). -/
structure CacheEntry where
  body : String
  status : Nat
  content_type : String
  headers : List (String × String)
  deriving DecidableEq

/-- The shared cache store, from fingerprint key to entry. -/
def CacheStore : Type :=
  List Char → Option CacheEntry

/-- `redis_client.set(key, ...)` (the bounded time-to-live passed by the
wrapper does not affect the claims modelled here). -/
def storeSet (st : CacheStore) (k : List Char) (e : CacheEntry) : CacheStore :=
  fun q => if q = k then some e else st q

/-- The request fields the response cache reads. -/
structure CacheReq where
  path_info : String
  query_string : String
  method : String
  headers : List (String × String)
  user_id : Option String
  deriving DecidableEq

/-- Case-insensitive request-header lookup (webob header mappings compare
names case-insensitively). -/
def reqHeaderGet (hs : List (String × String)) (k : String) : Option String :=
  (hs.find? (fun p => p.1.toLower == k.toLower)).map (fun p => p.2)

/-- `":".join(key_parts)` on character lists. -/
def joinColon : List (List Char) → List Char
  | [] => []
  | [x] => x
  | x :: xs => x ++ ':' :: joinColon xs

/-- `hashlib.md5(key_string.encode()).hexdigest()`: the cryptographic hash
is modelled as the identity embedding of the hashed string, i.e. as an
injective function — collision freedom of MD5 is assumed, not computed. -/
def md5hex (s : List Char) : List Char :=
  s

/-- The per-request failure the response cache can raise:
`key_parts.append(req.query_string.decode())` calls `.decode()` on the
query string, but on Python 3 the webob `query_string` is a native `str`
with no such method, so the guarded append raises `AttributeError` whenever
the query string is non-empty; no try/except covers the key computation in
`cache_response` (its only handler guards the later store step), so the
error propagates uncaught out of the wrapper. -/
inductive PyError where
  | attributeError
  deriving DecidableEq

/-- `_generate_response_cache_key`: the fingerprint is the path, then —
only when the query string is non-empty — the result of
`req.query_string.decode()`, a call that raises `AttributeError` on a
Python 3 `str`, so only the empty-query branch ever completes; then
`header:value` for each present vary header, then `user:{user_id}` when an
authenticated subject is attached and truthy, joined with `:` and hashed. -/
def generate_response_cache_key (req : CacheReq) (vary_headers : List String) :
    Except PyError (List Char) :=
  if req.query_string = "" then
    let key_parts := [req.path_info.toList]
    let key_parts := key_parts ++
      vary_headers.filterMap (fun h =>
        match reqHeaderGet req.headers h with
        | some v => some (h.toList ++ ':' :: v.toList)
        | none => none)
    let key_parts := key_parts ++
      (match req.user_id with
       | some uid => if uid = "" then [] else ["user:".toList ++ uid.toList]
       | none => [])
    Except.ok ("response:".toList ++ md5hex (joinColon key_parts))
  else Except.error PyError.attributeError

/-- What one pass through the `cache_response` wrapper produced. -/
structure CacheOutcome where
  resp : Resp
  store : CacheStore
  innerCalled : Bool

/-- One request through the `cache_response(timeout, vary_headers)` wrapper.
`enabled` is `settings.CACHE_ENABLED`, `hasClient` whether the module-level
redis client connected.  A disabled wrapper and a non-GET request pass
through before any key computation; otherwise the fingerprint is computed —
which raises, uncaught, for a non-empty query string — and a hit rebuilds
the response from the stored entry and tags `X-Cache: HIT` without calling
inward, while a miss calls inward, stores the response and tags
`X-Cache: MISS` (every response of this model is serializable, so the
silent-skip branch of the source is never taken). -/
def cache_response (enabled hasClient : Bool) (vary_headers : List String)
    (func : CacheReq → Resp) (req : CacheReq) (st : CacheStore) :
    Except PyError CacheOutcome :=
  if !enabled || !hasClient then Except.ok ⟨func req, st, true⟩
  else if req.method ≠ "GET" then Except.ok ⟨func req, st, true⟩
  else
    match generate_response_cache_key req vary_headers with
    | Except.error e => Except.error e
    | Except.ok cache_key =>
        match st cache_key with
        | some e =>
            let hdrs := setHeader
              (e.headers.foldl (fun acc p => setHeader acc p.1 p.2) [])
              "X-Cache" "HIT"
            Except.ok ⟨⟨e.status, e.body, e.content_type, hdrs⟩, st, false⟩
        | none =>
            let r := func req
            let entry : CacheEntry :=
              ⟨r.body, r.status, r.content_type, r.headers⟩
            let st2 := storeSet st cache_key entry
            Except.ok ⟨⟨r.status, r.body, r.content_type,
              setHeader r.headers "X-Cache" "MISS"⟩, st2, true⟩

/-! ## Route-template compiler and router (`src/ext.py`) -/

/-- The word characters of the source character class used by the `basic`
parameter type (the templates and paths of this service are ASCII; the
Unicode extension of the class is not modelled). -/
def isWordChar (c : Char) : Bool :=
  c.isAlphanum || c = '_'

/-- The 22-character base57 class of the module-level `regex` table of
`src/ext.py`: digits 2-9 and the latin letters without I, O, l. -/
def isShortuuidChar (c : Char) : Bool :=
  (decide ('2' ≤ c) && decide (c ≤ '9')) ||
  (decide ('A' ≤ c) && decide (c ≤ 'H')) ||
  (decide ('J' ≤ c) && decide (c ≤ 'N')) ||
  (decide ('P' ≤ c) && decide (c ≤ 'Z')) ||
  (decide ('a' ≤ c) && decide (c ≤ 'k')) ||
  (decide ('m' ≤ c) && decide (c ≤ 'z'))

/-- The regex fragment a ParameterType produces, as a recognizer. -/
inductive ParamPat where
  | basic
  | shortuuid
  deriving DecidableEq

/-- Whether a captured value matches the fragment: `basic` is one or more
word characters, `shortuuid` exactly 22 characters of the base57 class. -/
def patOK : ParamPat → List Char → Bool
  | ParamPat.basic, s => !s.isEmpty && s.all isWordChar
  | ParamPat.shortuuid, s => s.length == 22 && s.all isShortuuidChar

/-- Modelled from the spec: the pattern-producer function for the `basic`
type, looked up by `convert_template_to_regex` as `basic_only` in the
module globals, is not present in the repository snapshot; the spec gives it
as the word-character class. -/
def basic_only : ParamPat :=
  ParamPat.basic

/-- Modelled from the spec: the pattern-producer function for the
`shortuuid` type is not present in the repository snapshot; its fragment is
the entry kept in the module-level `regex` table of `src/ext.py`. -/
def shortuuid_only : ParamPat :=
  ParamPat.shortuuid

/-- The ParameterType registry lookup
`globals().get(f"{type_of_var}_only")`.  The two registered producers take
no positional or keyword arguments. -/
def patternFunc (ty : List Char) : Option ParamPat :=
  if ty = "basic".toList then some basic_only
  else if ty = "shortuuid".toList then some shortuuid_only
  else none

/-- A raw scanned template piece: literal text, or a placeholder
`<name>` / `<name:type>` with its optional type name. -/
inductive RawSeg where
  | lit (text : List Char)
  | var (name : List Char) (ty : Option (List Char))
  deriving DecidableEq

/-- A compiled piece of the anchored pattern `^...$`: escaped literal text
(matching exactly itself) or a named capture group with its registry
fragment. -/
inductive Seg where
  | lit (text : List Char)
  | var (name : List Char) (pat : ParamPat)
  deriving DecidableEq

/-- One attempted match of `var_pattern` at the head of the input: the
exact character `<`, a non-empty run of word characters (maximal munch is
exact here, since a shorter name would put a word character where `:` or
`>` must follow), optionally `:` and a non-empty type name, then `>`.
Placeholders using the argument-list form `<name:type(args)>` are outside
the model: the registered producers take no arguments. -/
def tryVarAt : List Char → Option (List Char × Option (List Char) × List Char)
  | '<' :: cs =>
      let name := cs.takeWhile isWordChar
      if name.isEmpty then none
      else
        match cs.drop name.length with
        | '>' :: rest => some (name, none, rest)
        | ':' :: cs2 =>
            let ty := cs2.takeWhile isWordChar
            if ty.isEmpty then none
            else
              match cs2.drop ty.length with
              | '>' :: rest => some (name, some ty, rest)
              | _ => none
        | _ => none
  | _ => none

/-- The scan of `var_pattern.finditer(template)`: find the leftmost
placeholder, emit the pending literal and the placeholder, continue after
it; text without a placeholder is literal.  Fuel-driven so that the
recursion is structural; the initial fuel covers the whole input. -/
def scanAux : Nat → List Char → List Char → List RawSeg
  | 0, acc, rest =>
      if acc.isEmpty && rest.isEmpty then [] else [RawSeg.lit (acc.reverse ++ rest)]
  | fuel + 1, acc, cs =>
      match tryVarAt cs with
      | some (name, ty, rest) =>
          (if acc.isEmpty then [] else [RawSeg.lit acc.reverse]) ++
            RawSeg.var name ty :: scanAux fuel [] rest
      | none =>
          match cs with
          | [] => if acc.isEmpty then [] else [RawSeg.lit acc.reverse]
          | c :: cs2 => scanAux fuel (c :: acc) cs2

/-- Split a route template into literal runs and placeholders. -/
def scanTemplate (template : List Char) : List RawSeg :=
  scanAux (template.length + 1) [] template

/-- The startup-time failure taxonomy of the compiler: `unknownType` is the
`KeyError("Unknown pattern type ...")` of `convert_template_to_regex`,
`duplicatePlaceholder` the `re.error` that `re.compile` raises in
`AdvancedRouter.add` when a group name is defined twice. -/
inductive ConfigurationError where
  | unknownType (ty : List Char)
  | duplicatePlaceholder
  deriving DecidableEq

/-- Resolve each scanned placeholder against the registry, defaulting the
type to `basic`; the first unknown type name raises. -/
def segsOfRaw : List RawSeg → Except ConfigurationError (List Seg)
  | [] => Except.ok []
  | RawSeg.lit t :: rest =>
      (segsOfRaw rest).map (fun segs => Seg.lit t :: segs)
  | RawSeg.var name ty :: rest =>
      let tyName := ty.getD "basic".toList
      match patternFunc tyName with
      | none => Except.error (ConfigurationError.unknownType tyName)
      | some p => (segsOfRaw rest).map (fun segs => Seg.var name p :: segs)

/-- `convert_template_to_regex`: scan the template and build the anchored
pattern `^ lit (?P<name>fragment) ... $`, with literals `re.escape`d (an
escaped literal matches exactly its own text). -/
def convert_template_to_regex (template : List Char) :
    Except ConfigurationError (List Seg) :=
  segsOfRaw (scanTemplate template)

/-- The capture-group names of a compiled pattern, in order. -/
def varNames : List Seg → List (List Char)
  | [] => []
  | Seg.lit _ :: rest => varNames rest
  | Seg.var n _ :: rest => n :: varNames rest

/-- `re.compile(convert_template_to_regex(uri_template))` as performed by
`AdvancedRouter.add`: compiling rejects a pattern that names the same
capture group twice. -/
def compileRoute (template : List Char) :
    Except ConfigurationError (List Seg) :=
  match convert_template_to_regex template with
  | Except.error e => Except.error e
  | Except.ok segs =>
      if (varNames segs).Nodup then Except.ok segs
      else Except.error ConfigurationError.duplicatePlaceholder

/-- One registered route: the tuple
`(pattern, handler, allowed_methods, uri_template, options)` appended by
`AdvancedRouter.add` (the handler is identified by a number). -/
structure Route where
  pattern : List Seg
  handler : Nat
  methods : List String
  uri_template : List Char
  options : List (String × String)
  deriving DecidableEq

/-- The default method list of `AdvancedRouter.add`. -/
def defaultMethods : List String :=
  ["HEAD", "GET", "POST", "PUT", "PATCH", "DELETE", "OPTIONS"]

/-- `AdvancedRouter.add`: compile the template at registration time —
failures raise here, at startup, before any request is routed — and append
the compiled route to the ordered list. -/
def addRoute (routes : List Route) (uri_template : List Char)
    (methods : List String) (handler : Nat)
    (options : List (String × String)) :
    Except ConfigurationError (List Route) :=
  match compileRoute uri_template with
  | Except.error e => Except.error e
  | Except.ok segs =>
      Except.ok (routes ++ [⟨segs, handler, methods, uri_template, options⟩])

/-- The descending list `[n, n-1, ..., 1]`. -/
def descLens : Nat → List Nat
  | 0 => []
  | n + 1 => (n + 1) :: descLens n

/-- Length of the maximal word-character run at the head of the input. -/
def wordPrefixLen (s : List Char) : Nat :=
  (s.takeWhile isWordChar).length

/-- Candidate capture lengths for one group, in the order the backtracking
regex engine tries them: the greedy `\w+` of `basic` tries the longest
word run first and backtracks one character at a time; the fixed-width
`shortuuid` class has the single length 22. -/
def greedyLens : ParamPat → List Char → List Nat
  | ParamPat.basic, s => descLens (wordPrefixLen s)
  | ParamPat.shortuuid, s =>
      if patOK ParamPat.shortuuid (s.take 22) then [22] else []

/-- The backtracking match of the anchored pattern against the whole path:
each literal must match exactly, each group takes its greedy candidates in
engine order and the first full-match split wins; the result is
`match.groupdict()` as an ordered name/value list.  Fuel-driven on the
number of pattern pieces so that the recursion is structural. -/
def gmatchAux : Nat → List Seg → List Char → Option (List (List Char × List Char))
  | 0, _, _ => none
  | _ + 1, [], s => if s.isEmpty then some [] else none
  | fuel + 1, Seg.lit l :: rest, s =>
      if l.isPrefixOf s then gmatchAux fuel rest (s.drop l.length) else none
  | fuel + 1, Seg.var n p :: rest, s =>
      (greedyLens p s).findSome? (fun k =>
        (gmatchAux fuel rest (s.drop k)).map
          (fun caps => (n, s.take k) :: caps))

/-- `pattern.match(req.path_info)` for the anchored compiled pattern. -/
def gmatch (segs : List Seg) (s : List Char) :
    Option (List (List Char × List Char)) :=
  gmatchAux (segs.length + 1) segs s

/-- The request fields `AdvancedRouter.find_route` reads. -/
structure RouterReq where
  path_info : List Char
  method : String
  deriving DecidableEq

/-- The outcome of route resolution: the matched handler with
`match.groupdict()` and the route options, or one of the raised routing
errors.  `exc.HTTPMethodNotAllowed` is raised bare in the source, with no
`Allow` information attached; the `allow` field records what the raised
report carries. -/
inductive FindResult where
  | found (handler : Nat) (params : List (List Char × List Char))
      (options : List (String × String))
  | methodNotAllowed (allow : List String)
  | notFound
  deriving DecidableEq

/-- The scan loop of `find_route` with its `matched` flag. -/
def findRouteAux (req : RouterReq) : List Route → Bool → FindResult
  | [], matched =>
      if matched then FindResult.methodNotAllowed [] else FindResult.notFound
  | r :: rest, matched =>
      match gmatch r.pattern req.path_info with
      | some caps =>
          if req.method ∈ r.methods then
            FindResult.found r.handler caps r.options
          else findRouteAux req rest true
      | none => findRouteAux req rest matched

/-- `AdvancedRouter.find_route`: scan the routes in registration order; the
first route whose pattern matches the path and whose allowed methods
contain the request method is returned; otherwise raise
`HTTPMethodNotAllowed` if some pattern matched the path, else
`HTTPNotFound`. -/
def find_route (routes : List Route) (req : RouterReq) : FindResult :=
  findRouteAux req routes false

/-- Whether the pattern of a route matches the request path. -/
def pathMatches (r : Route) (req : RouterReq) : Bool :=
  (gmatch r.pattern req.path_info).isSome

/-- The first registered route matching both path and method. -/
def firstAcceptable (routes : List Route) (req : RouterReq) : Option Route :=
  routes.find? (fun r => pathMatches r req && decide (req.method ∈ r.methods))

/-- Whether the pattern of any registered route matches the request path. -/
def anyPathMatch (routes : List Route) (req : RouterReq) : Bool :=
  routes.any (fun r => pathMatches r req)

/-- The union (as a concatenation, in registration order) of the
allowed-method sets of the routes whose pattern matches the path — what the
spec says a MethodNotAllowed report should carry. -/
def unionAllowedMethods (routes : List Route) (req : RouterReq) :
    List String :=
  (routes.filter (fun r => pathMatches r req)).foldr
    (fun r acc => r.methods ++ acc) []

/-- Substitute positional values for the placeholders of a compiled
pattern: the path obtained by writing each literal and, in order, one value
per capture group. -/
def render : List Seg → List (List Char) → Option (List Char)
  | [], [] => some []
  | [], _ :: _ => none
  | Seg.lit l :: rest, vs => (render rest vs).map (fun t => l ++ t)
  | Seg.var _ _ :: _, [] => none
  | Seg.var _ _ :: rest, v :: vs => (render rest vs).map (fun t => v ++ t)

/-- Whether positional values are valid for the placeholders of a compiled
pattern: one value per group, each matching its registry fragment. -/
def validVals : List Seg → List (List Char) → Bool
  | [], [] => true
  | [], _ :: _ => false
  | Seg.lit _ :: rest, vs => validVals rest vs
  | Seg.var _ _ :: _, [] => false
  | Seg.var _ p :: rest, v :: vs => patOK p v && validVals rest vs

/-- Whether a scanned placeholder names a type absent from the registry. -/
def rawUnknown : RawSeg → Bool
  | RawSeg.lit _ => false
  | RawSeg.var _ ty => (patternFunc (ty.getD "basic".toList)).isNone

/-- The placeholder names of a scanned template, in order. -/
def rawVarNames : List RawSeg → List (List Char)
  | [] => []
  | RawSeg.lit _ :: rest => rawVarNames rest
  | RawSeg.var n _ :: rest => n :: rawVarNames rest

/-! ## Helper lemmas -/

theorem getHeader_setHeader_same (hs : List (String × String)) (k v : String) :
    getHeader (setHeader hs k v) k = some v := by
  induction hs with
  | nil => simp [setHeader, getHeader]
  | cons p rest ih =>
      obtain ⟨k0, v0⟩ := p
      by_cases h : k0 = k
      · simp [setHeader, getHeader, h]
      · simpa [setHeader, getHeader, h] using ih

theorem getHeader_setHeader_other (hs : List (String × String)) (k k1 v : String)
    (h : k ≠ k1) : getHeader (setHeader hs k v) k1 = getHeader hs k1 := by
  induction hs with
  | nil => simp [setHeader, getHeader, h]
  | cons p rest ih =>
      obtain ⟨k0, v0⟩ := p
      by_cases hp : k0 = k
      · simp [setHeader, getHeader, hp, h]
      · simp only [setHeader, hp, if_false, getHeader]
        rw [ih]

theorem take_len_append (v t : List Char) : (v ++ t).take v.length = v := by
  induction v with
  | nil => simp
  | cons c cs ih => simp [ih]

theorem drop_len_append (v t : List Char) : (v ++ t).drop v.length = t := by
  induction v with
  | nil => simp
  | cons c cs ih => simp [ih]

theorem isPrefixOf_append_drop (l s : List Char) (h : l.isPrefixOf s = true) :
    l ++ s.drop l.length = s := by
  induction l generalizing s with
  | nil => simp
  | cons c cs ih =>
      cases s with
      | nil => simp [List.isPrefixOf] at h
      | cons b bs =>
          simp only [List.isPrefixOf, Bool.and_eq_true, beq_iff_eq] at h
          simpa [h.1] using ih bs h.2

theorem isPrefixOf_append_self (l t : List Char) :
    l.isPrefixOf (l ++ t) = true := by
  induction l with
  | nil => simp [List.isPrefixOf]
  | cons c cs ih => simp [List.isPrefixOf]

theorem exists_of_findSome?_some {α β : Type} (f : α → Option β) :
    ∀ (l : List α) (b : β), l.findSome? f = some b → ∃ a ∈ l, f a = some b := by
  intro l
  induction l with
  | nil => intro b h; simp [List.findSome?] at h
  | cons x xs ih =>
      intro b h
      rw [List.findSome?] at h
      cases hx : f x with
      | some y =>
          rw [hx] at h
          exact ⟨x, List.mem_cons_self x xs, by simpa [hx] using h⟩
      | none =>
          rw [hx] at h
          obtain ⟨a, ha, hfa⟩ := ih b h
          exact ⟨a, List.mem_cons_of_mem x ha, hfa⟩

theorem findSome?_isSome_of_mem {α β : Type} (f : α → Option β)
    (l : List α) (a : α) (ha : a ∈ l) (hb : (f a).isSome) :
    (l.findSome? f).isSome := by
  induction l with
  | nil => simp at ha
  | cons x xs ih =>
      rw [List.findSome?]
      cases hx : f x with
      | some y => simp
      | none =>
          rcases List.mem_cons.mp ha with h | h
          · subst h; rw [hx] at hb; simp at hb
          · exact ih h

theorem mem_descLens (n k : Nat) : k ∈ descLens n ↔ 1 ≤ k ∧ k ≤ n := by
  induction n with
  | zero =>
      simp only [descLens, List.not_mem_nil, false_iff]
      omega
  | succ m ih =>
      simp only [descLens, List.mem_cons, ih]
      omega

theorem wordPrefixLen_le_length (s : List Char) : wordPrefixLen s ≤ s.length := by
  induction s with
  | nil => simp [wordPrefixLen]
  | cons c cs ih =>
      by_cases hc : isWordChar c
      · simpa [wordPrefixLen, List.takeWhile, hc] using ih
      · simp [wordPrefixLen, List.takeWhile, hc]

theorem take_all_word_of_le (s : List Char) (k : Nat)
    (h : k ≤ wordPrefixLen s) : (s.take k).all isWordChar = true := by
  induction s generalizing k with
  | nil => simp
  | cons c cs ih =>
      cases k with
      | zero => simp
      | succ m =>
          by_cases hc : isWordChar c
          · simp only [wordPrefixLen, List.takeWhile] at h
            rw [hc] at h
            simp only [List.length_cons] at h
            simp only [List.take, List.all_cons, hc, Bool.true_and]
            exact ih m (by simpa [wordPrefixLen] using Nat.le_of_succ_le_succ h)
          · simp only [wordPrefixLen, List.takeWhile] at h
            rw [Bool.eq_false_iff.mpr hc] at h
            simp at h

theorem wordPrefixLen_append_ge (v t : List Char)
    (hv : v.all isWordChar = true) : v.length ≤ wordPrefixLen (v ++ t) := by
  induction v with
  | nil => simp
  | cons c cs ih =>
      simp only [List.all_cons, Bool.and_eq_true] at hv
      simp only [List.cons_append, wordPrefixLen, List.takeWhile, hv.1,
        List.length_cons]
      exact Nat.succ_le_succ (by simpa [wordPrefixLen] using ih hv.2)

theorem mem_greedyLens_patOK (p : ParamPat) (s : List Char) (k : Nat)
    (hk : k ∈ greedyLens p s) :
    patOK p (s.take k) = true ∧ k ≤ s.length := by
  cases p with
  | basic =>
      simp only [greedyLens] at hk
      obtain ⟨h1, h2⟩ := (mem_descLens _ _).mp hk
      have hword := take_all_word_of_le s k h2
      have hlen : k ≤ s.length := le_trans h2 (wordPrefixLen_le_length s)
      have htl : (s.take k).length = k := by
        rw [List.length_take]
        omega
      refine ⟨?_, hlen⟩
      simp only [patOK, Bool.and_eq_true]
      refine ⟨?_, hword⟩
      cases htk : s.take k with
      | nil =>
          rw [htk] at htl
          simp at htl
          omega
      | cons a l => simp
  | shortuuid =>
      simp only [greedyLens] at hk
      by_cases hc : patOK ParamPat.shortuuid (s.take 22) = true
      · rw [if_pos hc] at hk
        simp only [List.mem_singleton] at hk
        subst hk
        refine ⟨hc, ?_⟩
        simp only [patOK, Bool.and_eq_true, beq_iff_eq] at hc
        have := hc.1
        rw [List.length_take] at this
        omega
      · rw [if_neg hc] at hk
        simp at hk

theorem length_mem_greedyLens (p : ParamPat) (v t : List Char)
    (hv : patOK p v = true) : v.length ∈ greedyLens p (v ++ t) := by
  cases p with
  | basic =>
      simp only [patOK, Bool.and_eq_true] at hv
      have h1 : 1 ≤ v.length := by
        cases v with
        | nil => simp at hv
        | cons a l => simp
      exact (mem_descLens _ _).mpr ⟨h1, wordPrefixLen_append_ge v t hv.2⟩
  | shortuuid =>
      have h22 : v.length = 22 := by
        simp only [patOK, Bool.and_eq_true, beq_iff_eq] at hv
        exact hv.1
      have htake : (v ++ t).take 22 = v := by
        rw [← h22]
        exact take_len_append v t
      simp [greedyLens, htake, hv, h22]

theorem gmatchAux_sound (fuel : Nat) :
    ∀ (segs : List Seg) (s : List Char) (caps : List (List Char × List Char)),
      gmatchAux fuel segs s = some caps →
      caps.map Prod.fst = varNames segs ∧
      validVals segs (caps.map Prod.snd) = true ∧
      render segs (caps.map Prod.snd) = some s := by
  induction fuel with
  | zero =>
      intro segs s caps h
      simp [gmatchAux] at h
  | succ f ih =>
      intro segs s caps h
      cases segs with
      | nil =>
          simp only [gmatchAux] at h
          by_cases hs : s.isEmpty = true
          · rw [if_pos hs] at h
            have hc : caps = [] := by
              injection h with h0
              exact h0.symm
            have hs0 : s = [] := by
              cases s
              · rfl
              · simp at hs
            subst hc
            subst hs0
            exact ⟨rfl, rfl, rfl⟩
          · rw [if_neg hs] at h
            simp at h
      | cons seg rest =>
          cases seg with
          | lit l =>
              simp only [gmatchAux] at h
              by_cases hp : l.isPrefixOf s = true
              · rw [if_pos hp] at h
                obtain ⟨h1, h2, h3⟩ := ih rest (s.drop l.length) caps h
                refine ⟨by simpa [varNames] using h1,
                  by simpa [validVals] using h2, ?_⟩
                simp only [render, h3, Option.map_some']
                rw [isPrefixOf_append_drop l s hp]
              · rw [if_neg hp] at h
                simp at h
          | var n p =>
              simp only [gmatchAux] at h
              obtain ⟨k, hk, hfk⟩ := exists_of_findSome?_some _ _ _ h
              cases hg : gmatchAux f rest (s.drop k) with
              | none =>
                  rw [hg] at hfk
                  simp at hfk
              | some caps0 =>
                  rw [hg] at hfk
                  simp only [Option.map_some'] at hfk
                  have hc : caps = (n, s.take k) :: caps0 := by
                    injection hfk with h0
                    exact h0.symm
                  subst hc
                  obtain ⟨h1, h2, h3⟩ := ih rest (s.drop k) caps0 hg
                  obtain ⟨hpat, hklen⟩ := mem_greedyLens_patOK p s k hk
                  refine ⟨by simp [varNames, h1], ?_, ?_⟩
                  · simp only [List.map_cons, validVals, Bool.and_eq_true]
                    exact ⟨hpat, h2⟩
                  · simp only [List.map_cons, render, h3, Option.map_some']
                    rw [List.take_append_drop]

theorem gmatchAux_complete (fuel : Nat) :
    ∀ (segs : List Seg) (vals : List (List Char)) (s : List Char),
      segs.length < fuel → validVals segs vals = true →
      render segs vals = some s → (gmatchAux fuel segs s).isSome = true := by
  induction fuel with
  | zero =>
      intro segs vals s hlen
      omega
  | succ f ih =>
      intro segs vals s hlen hv hr
      cases segs with
      | nil =>
          cases vals with
          | nil =>
              have hs : s = [] := by
                simp only [render] at hr
                injection hr with h0
                exact h0.symm
              subst hs
              simp [gmatchAux]
          | cons v vs => simp [validVals] at hv
      | cons seg rest =>
          cases seg with
          | lit l =>
              simp only [render] at hr
              cases hr0 : render rest vals with
              | none =>
                  rw [hr0] at hr
                  simp at hr
              | some t =>
                  rw [hr0] at hr
                  simp only [Option.map_some'] at hr
                  have hs : s = l ++ t := by
                    injection hr with h0
                    exact h0.symm
                  subst hs
                  simp only [gmatchAux]
                  rw [if_pos (isPrefixOf_append_self l t)]
                  rw [drop_len_append]
                  exact ih rest vals t
                    (by simpa using Nat.lt_of_succ_lt_succ hlen)
                    (by simpa [validVals] using hv) hr0
          | var n p =>
              cases vals with
              | nil => simp [validVals] at hv
              | cons v vs =>
                  simp only [validVals, Bool.and_eq_true] at hv
                  simp only [render] at hr
                  cases hr0 : render rest vs with
                  | none =>
                      rw [hr0] at hr
                      simp at hr
                  | some t =>
                      rw [hr0] at hr
                      simp only [Option.map_some'] at hr
                      have hs : s = v ++ t := by
                        injection hr with h0
                        exact h0.symm
                      subst hs
                      simp only [gmatchAux]
                      apply findSome?_isSome_of_mem _ _ v.length
                        (length_mem_greedyLens p v t hv.1)
                      rw [drop_len_append]
                      have hrest := ih rest vs t
                        (by simpa using Nat.lt_of_succ_lt_succ hlen) hv.2 hr0
                      cases hgm : gmatchAux f rest t with
                      | none =>
                          rw [hgm] at hrest
                          simp at hrest
                      | some c => simp

theorem segsOfRaw_vars_from_registry :
    ∀ (raws : List RawSeg) (segs : List Seg),
      segsOfRaw raws = Except.ok segs →
      ∀ n p, Seg.var n p ∈ segs → ∃ ty, patternFunc ty = some p := by
  intro raws
  induction raws with
  | nil =>
      intro segs h n p hm
      simp only [segsOfRaw] at h
      injection h with h0
      subst h0
      simp at hm
  | cons r rest ih =>
      intro segs h n p hm
      cases r with
      | lit t =>
          simp only [segsOfRaw] at h
          cases h0 : segsOfRaw rest with
          | error e =>
              rw [h0] at h
              simp [Except.map] at h
          | ok segs0 =>
              rw [h0] at h
              simp only [Except.map] at h
              injection h with h1
              subst h1
              rcases List.mem_cons.mp hm with h2 | h2
              · cases h2
              · exact ih segs0 h0 n p h2
      | var name ty =>
          simp only [segsOfRaw] at h
          cases hf : patternFunc (ty.getD "basic".toList) with
          | none =>
              rw [hf] at h
              simp at h
          | some p0 =>
              rw [hf] at h
              cases h0 : segsOfRaw rest with
              | error e =>
                  rw [h0] at h
                  simp [Except.map] at h
              | ok segs0 =>
                  rw [h0] at h
                  simp only [Except.map] at h
                  injection h with h1
                  subst h1
                  rcases List.mem_cons.mp hm with h2 | h2
                  · injection h2 with h3 h4
                    subst h4
                    exact ⟨ty.getD "basic".toList, hf⟩
                  · exact ih segs0 h0 n p h2

theorem segsOfRaw_error_of_unknown :
    ∀ raws : List RawSeg, raws.any rawUnknown = true →
      ∃ e, segsOfRaw raws = Except.error e := by
  intro raws
  induction raws with
  | nil =>
      intro h
      simp at h
  | cons r rest ih =>
      intro h
      simp only [List.any_cons, Bool.or_eq_true] at h
      cases r with
      | lit t =>
          rcases h with h | h
          · simp [rawUnknown] at h
          · obtain ⟨e, he⟩ := ih h
            exact ⟨e, by simp [segsOfRaw, he, Except.map]⟩
      | var name ty =>
          cases hf : patternFunc (ty.getD "basic".toList) with
          | none =>
              refine ⟨ConfigurationError.unknownType (ty.getD "basic".toList), ?_⟩
              simp only [segsOfRaw]
              rw [hf]
          | some p0 =>
              rcases h with h | h
              · simp only [rawUnknown] at h
                rw [hf] at h
                simp at h
              · obtain ⟨e, he⟩ := ih h
                refine ⟨e, ?_⟩
                simp only [segsOfRaw]
                rw [hf, he]
                rfl

theorem segsOfRaw_names :
    ∀ (raws : List RawSeg) (segs : List Seg),
      segsOfRaw raws = Except.ok segs →
      varNames segs = rawVarNames raws := by
  intro raws
  induction raws with
  | nil =>
      intro segs h
      simp only [segsOfRaw] at h
      injection h with h0
      subst h0
      rfl
  | cons r rest ih =>
      intro segs h
      cases r with
      | lit t =>
          simp only [segsOfRaw] at h
          cases h0 : segsOfRaw rest with
          | error e =>
              rw [h0] at h
              simp [Except.map] at h
          | ok segs0 =>
              rw [h0] at h
              simp only [Except.map] at h
              injection h with h1
              subst h1
              simpa [varNames, rawVarNames] using ih segs0 h0
      | var name ty =>
          simp only [segsOfRaw] at h
          cases hf : patternFunc (ty.getD "basic".toList) with
          | none =>
              rw [hf] at h
              simp at h
          | some p0 =>
              rw [hf] at h
              cases h0 : segsOfRaw rest with
              | error e =>
                  rw [h0] at h
                  simp [Except.map] at h
              | ok segs0 =>
                  rw [h0] at h
                  simp only [Except.map] at h
                  injection h with h1
                  subst h1
                  simpa [varNames, rawVarNames] using ih segs0 h0

theorem firstAcceptable_cons (r : Route) (rest : List Route) (req : RouterReq) :
    firstAcceptable (r :: rest) req =
      if (pathMatches r req && decide (req.method ∈ r.methods)) = true then some r
      else firstAcceptable rest req := by
  by_cases h : (pathMatches r req && decide (req.method ∈ r.methods)) = true
  · rw [if_pos h]
    exact List.find?_cons_of_pos _ h
  · rw [if_neg h]
    exact List.find?_cons_of_neg _ (by simpa using h)

theorem anyPathMatch_cons (r : Route) (rest : List Route) (req : RouterReq) :
    anyPathMatch (r :: rest) req =
      (pathMatches r req || anyPathMatch rest req) := by
  simp [anyPathMatch]

theorem findRouteAux_eq (req : RouterReq) :
    ∀ (routes : List Route) (matched : Bool),
      findRouteAux req routes matched =
        match firstAcceptable routes req with
        | some r =>
            FindResult.found r.handler
              ((gmatch r.pattern req.path_info).getD []) r.options
        | none =>
            if matched || anyPathMatch routes req then
              FindResult.methodNotAllowed []
            else FindResult.notFound := by
  intro routes
  induction routes with
  | nil =>
      intro matched
      simp [findRouteAux, firstAcceptable, anyPathMatch]
  | cons r rest ih =>
      intro matched
      rw [firstAcceptable_cons, anyPathMatch_cons]
      by_cases hp : pathMatches r req = true
      · obtain ⟨caps, hg⟩ : ∃ caps, gmatch r.pattern req.path_info = some caps := by
          simpa [pathMatches, Option.isSome_iff_exists] using hp
        by_cases hm : req.method ∈ r.methods
        · rw [show findRouteAux req (r :: rest) matched =
              FindResult.found r.handler caps r.options from by
            simp [findRouteAux, hg, hm]]
          simp [hp, hm, hg]
        · rw [show findRouteAux req (r :: rest) matched =
              findRouteAux req rest true from by simp [findRouteAux, hg, hm]]
          rw [ih true]
          cases hfa : firstAcceptable rest req with
          | none => simp [hp, hm]
          | some r0 => simp [hp, hm]
      · have hg : gmatch r.pattern req.path_info = none := by
          cases hgg : gmatch r.pattern req.path_info with
          | none => rfl
          | some caps => exact absurd (by simp [pathMatches, hgg]) hp
        have hp1 : pathMatches r req = false := by
          simpa using hp
        rw [show findRouteAux req (r :: rest) matched =
            findRouteAux req rest matched from by simp [findRouteAux, hg]]
        rw [ih matched]
        cases hfa : firstAcceptable rest req with
        | none => cases matched <;> simp [hp1]
        | some r0 => simp [hp1]

theorem joinColon_cons₂ (x y : List Char) (ys : List (List Char)) :
    joinColon (x :: y :: ys) = x ++ ':' :: joinColon (y :: ys) := by
  rfl

theorem joinColon_snoc_inj (base : List (List Char)) (p q : List Char)
    (h : joinColon (base ++ [p]) = joinColon (base ++ [q])) : p = q := by
  induction base with
  | nil => simpa [joinColon] using h
  | cons x rest ih =>
      cases rest with
      | nil =>
          simp only [List.cons_append, List.nil_append, joinColon_cons₂,
            joinColon] at h
          have h2 := List.append_cancel_left h
          injection h2
      | cons y ys =>
          simp only [List.cons_append, joinColon_cons₂] at h
          have h2 := List.append_cancel_left h
          injection h2 with _ h3
          exact ih (by simpa using h3)

theorem string_toList_inj {a b : String} (h : a.toList = b.toList) : a = b := by
  cases a
  cases b
  simp only [String.toList] at h
  simp [h]

theorem filterMap_congr_mem {α β : Type} (l : List α) (f g : α → Option β)
    (h : ∀ x ∈ l, f x = g x) : l.filterMap f = l.filterMap g := by
  induction l with
  | nil => rfl
  | cons x xs ih =>
      simp only [List.filterMap_cons]
      rw [h x (List.mem_cons_self x xs),
        ih (fun y hy => h y (List.mem_cons_of_mem x hy))]

theorem cache_key_ne (req1 req2 : CacheReq) (vary : List String)
    (hpath : req1.path_info = req2.path_info)
    (hq1 : req1.query_string = "") (hq2 : req2.query_string = "")
    (hvary : ∀ h ∈ vary, reqHeaderGet req1.headers h = reqHeaderGet req2.headers h)
    (u1 u2 : String) (h1 : req1.user_id = some u1) (h2 : req2.user_id = some u2)
    (hne1 : u1 ≠ "") (hne2 : u2 ≠ "") (hne : u1 ≠ u2) :
    generate_response_cache_key req1 vary ≠ generate_response_cache_key req2 vary := by
  intro hkey
  simp only [generate_response_cache_key, md5hex, if_pos hq1, if_pos hq2,
    h1, h2, if_neg hne1, if_neg hne2, Except.ok.injEq] at hkey
  have hbase :
      ([req1.path_info.toList] ++
        vary.filterMap (fun h =>
          match reqHeaderGet req1.headers h with
          | some v => some (h.toList ++ ':' :: v.toList)
          | none => none)) =
      ([req2.path_info.toList] ++
        vary.filterMap (fun h =>
          match reqHeaderGet req2.headers h with
          | some v => some (h.toList ++ ':' :: v.toList)
          | none => none)) := by
    rw [hpath]
    rw [filterMap_congr_mem vary _ _ (fun x hx => by rw [hvary x hx])]
  rw [← hbase] at hkey
  have hjoin := List.append_cancel_left hkey
  have huser := joinColon_snoc_inj _ _ _ hjoin
  have hu := List.append_cancel_left huser
  exact hne (string_toList_inj hu)

/-! ## Claims -/

/-- C7: for every subjectId and roles, verifying a freshly issued token
before its expiry succeeds and returns claims carrying the same subjectId
and the same roles (read back as the guards read them, with the empty
default); verifying the same token once the current time reaches the expiry
fails with the expired error; a wrong signature or a malformed token fails
with the invalid error; both failures are unauthorized (401) outcomes. -/
theorem token_roundtrip_C7 (secret : String) (expiration now : Int)
    (uid : String) (roles : List String) (extra : List (String × String))
    (t1 t2 : Int) (h1 : t1 < now + expiration) (h2 : now + expiration ≤ t2) :
    (∃ p, verify_token secret t1
        (create_token secret expiration now uid (some roles) extra) =
          Except.ok p ∧
      p.sub = uid ∧ p.roles.getD [] = roles) ∧
    verify_token secret t2
        (create_token secret expiration now uid (some roles) extra) =
      Except.error TokenError.expired ∧
    (∀ (p : JWTPayload) (s : String × JWTPayload), s ≠ jwtSign secret p →
      verify_token secret t1 (Token.signed p s) =
        Except.error TokenError.invalid) ∧
    (∀ raw, verify_token secret t1 (Token.malformed raw) =
      Except.error TokenError.invalid) ∧
    tokenErrorStatus TokenError.expired = 401 ∧
    tokenErrorStatus TokenError.invalid = 401 := by
  have hpay : create_token secret expiration now uid (some roles) extra =
      Token.signed
        ⟨uid, now, now + expiration,
          if roles.isEmpty then none else some roles, extra⟩
        (jwtSign secret
          ⟨uid, now, now + expiration,
            if roles.isEmpty then none else some roles, extra⟩) := by
    simp [create_token]
  refine ⟨?_, ?_, ?_, ?_, rfl, rfl⟩
  · refine ⟨⟨uid, now, now + expiration,
      if roles.isEmpty then none else some roles, extra⟩, ?_, rfl, ?_⟩
    · rw [hpay]
      simp only [verify_token, if_pos rfl]
      rw [if_neg (show ¬(now + expiration ≤ t1) by omega)]
      simp
    · by_cases hr : roles.isEmpty
      · have h0 : roles = [] := by simpa using hr
        simp [hr, h0]
      · simp [hr]
  · rw [hpay]
    simp only [verify_token, if_pos rfl]
    rw [if_pos (show now + expiration ≤ t2 from h2)]
    simp
  · intro p s hs
    simp [verify_token, hs]
  · intro raw
    simp [verify_token]

/-- C7 witness at a concrete issue/verify pair. -/
theorem token_roundtrip_C7_witness :
    (100 : Int) < 0 + 3600 ∧ (0 : Int) + 3600 ≤ 3600 ∧
    ((∃ p, verify_token "s" 100
        (create_token "s" 3600 0 "42" (some ["user"]) []) = Except.ok p ∧
      p.sub = "42" ∧ p.roles.getD [] = ["user"]) ∧
    verify_token "s" 3600 (create_token "s" 3600 0 "42" (some ["user"]) []) =
      Except.error TokenError.expired ∧
    (∀ (p : JWTPayload) (s : String × JWTPayload), s ≠ jwtSign "s" p →
      verify_token "s" 100 (Token.signed p s) =
        Except.error TokenError.invalid) ∧
    (∀ raw, verify_token "s" 100 (Token.malformed raw) =
      Except.error TokenError.invalid) ∧
    tokenErrorStatus TokenError.expired = 401 ∧
    tokenErrorStatus TokenError.invalid = 401) :=
  ⟨by decide, by decide,
    token_roundtrip_C7 "s" 3600 0 "42" ["user"] [] 100 3600
      (by decide) (by decide)⟩

/-- C10: a handler guarded by `require_roles []` is rejected with 403 even
when the request carries a valid, unexpired token — the `any`-based check
over the empty required list never succeeds, so authentication alone never
satisfies the role guard. -/
theorem require_roles_empty_C10 (secret : String) (now : Int) (req : AuthReq)
    (func : AuthReq → JWTPayload → HandlerOutcome) (tok : Token)
    (p : JWTPayload)
    (hex : extract_token_from_request req = some tok)
    (hver : verify_token secret now tok = Except.ok p) :
    require_roles [] secret now func req =
      HandlerOutcome.httpError 403 "Insufficient permissions" := by
  simp [require_roles, require_auth, hex, hver]

/-- C10 witness: a concrete request with a freshly issued, unexpired
token. -/
theorem require_roles_empty_C10_witness :
    extract_token_from_request
        ⟨some (AuthHeaderVal.bearer
          (create_token "s" 3600 0 "7" (some ["user"]) [])), none⟩ =
      some (create_token "s" 3600 0 "7" (some ["user"]) []) ∧
    verify_token "s" 10 (create_token "s" 3600 0 "7" (some ["user"]) []) =
      Except.ok ⟨"7", 0, 3600, some ["user"], []⟩ ∧
    require_roles [] "s" 10 (fun _ _ => HandlerOutcome.response 200 "ok")
        ⟨some (AuthHeaderVal.bearer
          (create_token "s" 3600 0 "7" (some ["user"]) [])), none⟩ =
      HandlerOutcome.httpError 403 "Insufficient permissions" :=
  ⟨rfl, rfl,
    require_roles_empty_C10 "s" 10
      ⟨some (AuthHeaderVal.bearer
        (create_token "s" 3600 0 "7" (some ["user"]) [])), none⟩
      (fun _ _ => HandlerOutcome.response 200 "ok")
      (create_token "s" 3600 0 "7" (some ["user"]) [])
      ⟨"7", 0, 3600, some ["user"], []⟩ rfl rfl⟩

/-- C9: with the feature flag off or with no reachable store client, the
rate-limit wrapper and the response-cache wrapper each return exactly the
inner response — the inner handler is called, the store is untouched, no
header is attached and no error is raised (the disabled cache path returns
before the key computation that would raise on a non-empty query string). -/
theorem degrade_open_C9 (enabled hasClient : Bool)
    (hoff : enabled = false ∨ hasClient = false)
    (limit : Option Nat) (period dflt : Nat) (now : Int) (innerResp : Resp)
    (st : Option RedisEntry) (vary : List String) (func : CacheReq → Resp)
    (req : CacheReq) (cst : CacheStore) :
    rate_limit enabled hasClient limit period dflt now innerResp st =
      ⟨innerResp, st, true⟩ ∧
    cache_response enabled hasClient vary func req cst =
      Except.ok ⟨func req, cst, true⟩ := by
  rcases hoff with h | h
  · subst h
    exact ⟨rfl, rfl⟩
  · subst h
    cases enabled
    · exact ⟨rfl, rfl⟩
    · exact ⟨rfl, rfl⟩

/-- C9 witness with the feature flags off. -/
theorem degrade_open_C9_witness :
    (false = false ∨ true = false) ∧
    rate_limit false true (some 5) 60 100 0
        ⟨200, "ok", "application/json", []⟩ none =
      ⟨⟨200, "ok", "application/json", []⟩, none, true⟩ ∧
    cache_response false true []
        (fun _ => ⟨200, "ok", "application/json", []⟩)
        ⟨"/p", "", "GET", [], none⟩ (fun _ => none) =
      Except.ok ⟨⟨200, "ok", "application/json", []⟩, (fun _ => none), true⟩ :=
  ⟨Or.inl rfl,
    degrade_open_C9 false true (Or.inl rfl) (some 5) 60 100 0
      ⟨200, "ok", "application/json", []⟩ none []
      (fun _ => ⟨200, "ok", "application/json", []⟩)
      ⟨"/p", "", "GET", [], none⟩ (fun _ => none)⟩

/-- C8 (code bug, evaluated): the claimed isolation is the intent of the
spec, but any GET request reaching the wrapper with a non-empty query
string crashes first — `req.query_string.decode()` raises AttributeError
(a Python 3 `str` has no `decode`) before any fingerprint key is computed,
any cache entry is read or written, or the inner handler is called — shown
here for both subjects at the concrete failing input `GET /tasks?page=1`.
On the inputs where the key computation completes (empty query string),
two GET requests with identical path and vary-header values but different
truthy authenticated subjects get distinct fingerprint keys, and the second
request is not served the entry stored for the first: it calls its own
inner handler and is tagged a MISS. -/
theorem cache_query_decode_C8 (req1 req2 : CacheReq) (vary : List String)
    (f1 f2 : CacheReq → Resp) (u1 u2 : String)
    (hpath : req1.path_info = req2.path_info)
    (hq1 : req1.query_string = "") (hq2 : req2.query_string = "")
    (hvary : ∀ h ∈ vary,
      reqHeaderGet req1.headers h = reqHeaderGet req2.headers h)
    (h1 : req1.user_id = some u1) (h2 : req2.user_id = some u2)
    (hne1 : u1 ≠ "") (hne2 : u2 ≠ "") (hne : u1 ≠ u2)
    (hm1 : req1.method = "GET") (hm2 : req2.method = "GET") :
    (cache_response true true []
        (fun _ => ⟨200, "one", "application/json", []⟩)
        ⟨"/tasks", "page=1", "GET", [], some "1"⟩ (fun _ => none) =
      Except.error PyError.attributeError ∧
     cache_response true true []
        (fun _ => ⟨200, "two", "application/json", []⟩)
        ⟨"/tasks", "page=1", "GET", [], some "2"⟩ (fun _ => none) =
      Except.error PyError.attributeError) ∧
    generate_response_cache_key req1 vary ≠
      generate_response_cache_key req2 vary ∧
    ∃ o1 o2 : CacheOutcome,
      cache_response true true vary f1 req1 (fun _ => none) = Except.ok o1 ∧
      cache_response true true vary f2 req2 o1.store = Except.ok o2 ∧
      o2.innerCalled = true ∧
      getHeader o2.resp.headers "X-Cache" = some "MISS" ∧
      o2.resp.body = (f2 req2).body := by
  have hgenne := cache_key_ne req1 req2 vary hpath hq1 hq2 hvary u1 u2 h1 h2
    hne1 hne2 hne
  obtain ⟨k1, hk1⟩ : ∃ k, generate_response_cache_key req1 vary =
      Except.ok k := by
    simp [generate_response_cache_key, hq1]
  obtain ⟨k2, hk2⟩ : ∃ k, generate_response_cache_key req2 vary =
      Except.ok k := by
    simp [generate_response_cache_key, hq2]
  have hkne : k1 ≠ k2 := by
    intro h
    apply hgenne
    rw [hk1, hk2, h]
  have ho1 : cache_response true true vary f1 req1 (fun _ => none) =
      Except.ok ⟨⟨(f1 req1).status, (f1 req1).body, (f1 req1).content_type,
          setHeader (f1 req1).headers "X-Cache" "MISS"⟩,
        storeSet (fun _ => none) k1
          ⟨(f1 req1).body, (f1 req1).status, (f1 req1).content_type,
            (f1 req1).headers⟩, true⟩ := by
    simp [cache_response, hm1, hk1]
  have ho2 : cache_response true true vary f2 req2
      (storeSet (fun _ => none) k1
        ⟨(f1 req1).body, (f1 req1).status, (f1 req1).content_type,
          (f1 req1).headers⟩) =
      Except.ok ⟨⟨(f2 req2).status, (f2 req2).body, (f2 req2).content_type,
          setHeader (f2 req2).headers "X-Cache" "MISS"⟩,
        storeSet (storeSet (fun _ => none) k1
            ⟨(f1 req1).body, (f1 req1).status, (f1 req1).content_type,
              (f1 req1).headers⟩) k2
          ⟨(f2 req2).body, (f2 req2).status, (f2 req2).content_type,
            (f2 req2).headers⟩, true⟩ := by
    simp [cache_response, hm2, hk2, storeSet, Ne.symm hkne]
  exact ⟨⟨rfl, rfl⟩, hgenne,
    ⟨_, _, ho1, ho2, rfl, getHeader_setHeader_same _ _ _, rfl⟩⟩

/-- C8 witness: the concrete crash at `GET /tasks?page=1` and, on the
empty-query domain, isolation between the subjects 1 and 2. -/
theorem cache_query_decode_C8_witness :
    (cache_response true true []
        (fun _ => ⟨200, "one", "application/json", []⟩)
        ⟨"/tasks", "page=1", "GET", [], some "1"⟩ (fun _ => none) =
      Except.error PyError.attributeError ∧
     cache_response true true []
        (fun _ => ⟨200, "two", "application/json", []⟩)
        ⟨"/tasks", "page=1", "GET", [], some "2"⟩ (fun _ => none) =
      Except.error PyError.attributeError) ∧
    generate_response_cache_key ⟨"/tasks", "", "GET", [], some "1"⟩ [] ≠
      generate_response_cache_key ⟨"/tasks", "", "GET", [], some "2"⟩ [] ∧
    ∃ o1 o2 : CacheOutcome,
      cache_response true true []
          (fun _ => ⟨200, "one", "application/json", []⟩)
          ⟨"/tasks", "", "GET", [], some "1"⟩ (fun _ => none) =
        Except.ok o1 ∧
      cache_response true true []
          (fun _ => ⟨200, "two", "application/json", []⟩)
          ⟨"/tasks", "", "GET", [], some "2"⟩ o1.store = Except.ok o2 ∧
      o2.innerCalled = true ∧
      getHeader o2.resp.headers "X-Cache" = some "MISS" ∧
      o2.resp.body = "two" :=
  cache_query_decode_C8 ⟨"/tasks", "", "GET", [], some "1"⟩
    ⟨"/tasks", "", "GET", [], some "2"⟩ []
    (fun _ => ⟨200, "one", "application/json", []⟩)
    (fun _ => ⟨200, "two", "application/json", []⟩)
    "1" "2" rfl rfl rfl (by simp) rfl rfl (by decide) (by decide) (by decide)
    rfl rfl

/-- C6: with rate limiting enabled, `limit=5`, `period=60` and an empty
window for the client key, the first five requests (all within the window
opened by the first) call the inner handler and return it with
`X-RateLimit-Remaining` decremented one per request down to `0`; the sixth
does not call the inner handler and returns 429 with `Remaining: 0` and a
strictly positive `Retry-After`.  Each conjunct feeds the store produced by
the previous request into the next one. -/
theorem rate_limit_window_C6 (t1 t2 t3 t4 t5 t6 : Int) (inner : Resp)
    (h2 : t2 < t1 + 60) (h3 : t3 < t1 + 60) (h4 : t4 < t1 + 60)
    (h5 : t5 < t1 + 60) (h6 : t6 < t1 + 60) :
    ((rate_limit true true (some 5) 60 100 t1 inner none).store =
        some ⟨1, some (t1 + 60)⟩ ∧
      (rate_limit true true (some 5) 60 100 t1 inner none).innerCalled = true ∧
      getHeader (rate_limit true true (some 5) 60 100 t1 inner
          none).resp.headers "X-RateLimit-Remaining" = some "4" ∧
      (rate_limit true true (some 5) 60 100 t1 inner none).resp.body =
        inner.body) ∧
    ((rate_limit true true (some 5) 60 100 t2 inner
        (some ⟨1, some (t1 + 60)⟩)).store = some ⟨2, some (t1 + 60)⟩ ∧
      (rate_limit true true (some 5) 60 100 t2 inner
        (some ⟨1, some (t1 + 60)⟩)).innerCalled = true ∧
      getHeader (rate_limit true true (some 5) 60 100 t2 inner
          (some ⟨1, some (t1 + 60)⟩)).resp.headers "X-RateLimit-Remaining" =
        some "3" ∧
      (rate_limit true true (some 5) 60 100 t2 inner
        (some ⟨1, some (t1 + 60)⟩)).resp.body = inner.body) ∧
    ((rate_limit true true (some 5) 60 100 t3 inner
        (some ⟨2, some (t1 + 60)⟩)).store = some ⟨3, some (t1 + 60)⟩ ∧
      (rate_limit true true (some 5) 60 100 t3 inner
        (some ⟨2, some (t1 + 60)⟩)).innerCalled = true ∧
      getHeader (rate_limit true true (some 5) 60 100 t3 inner
          (some ⟨2, some (t1 + 60)⟩)).resp.headers "X-RateLimit-Remaining" =
        some "2" ∧
      (rate_limit true true (some 5) 60 100 t3 inner
        (some ⟨2, some (t1 + 60)⟩)).resp.body = inner.body) ∧
    ((rate_limit true true (some 5) 60 100 t4 inner
        (some ⟨3, some (t1 + 60)⟩)).store = some ⟨4, some (t1 + 60)⟩ ∧
      (rate_limit true true (some 5) 60 100 t4 inner
        (some ⟨3, some (t1 + 60)⟩)).innerCalled = true ∧
      getHeader (rate_limit true true (some 5) 60 100 t4 inner
          (some ⟨3, some (t1 + 60)⟩)).resp.headers "X-RateLimit-Remaining" =
        some "1" ∧
      (rate_limit true true (some 5) 60 100 t4 inner
        (some ⟨3, some (t1 + 60)⟩)).resp.body = inner.body) ∧
    ((rate_limit true true (some 5) 60 100 t5 inner
        (some ⟨4, some (t1 + 60)⟩)).store = some ⟨5, some (t1 + 60)⟩ ∧
      (rate_limit true true (some 5) 60 100 t5 inner
        (some ⟨4, some (t1 + 60)⟩)).innerCalled = true ∧
      getHeader (rate_limit true true (some 5) 60 100 t5 inner
          (some ⟨4, some (t1 + 60)⟩)).resp.headers "X-RateLimit-Remaining" =
        some "0" ∧
      (rate_limit true true (some 5) 60 100 t5 inner
        (some ⟨4, some (t1 + 60)⟩)).resp.body = inner.body) ∧
    ((rate_limit true true (some 5) 60 100 t6 inner
        (some ⟨5, some (t1 + 60)⟩)).innerCalled = false ∧
      (rate_limit true true (some 5) 60 100 t6 inner
        (some ⟨5, some (t1 + 60)⟩)).resp.status = 429 ∧
      getHeader (rate_limit true true (some 5) 60 100 t6 inner
          (some ⟨5, some (t1 + 60)⟩)).resp.headers "X-RateLimit-Remaining" =
        some "0" ∧
      getHeader (rate_limit true true (some 5) 60 100 t6 inner
          (some ⟨5, some (t1 + 60)⟩)).resp.headers "Retry-After" =
        some (toString (t1 + 60 - t6)) ∧
      0 < t1 + 60 - t6) := by
  have hpos : (0 : Int) < t1 + 60 - t6 := by omega
  refine ⟨⟨?_, ?_, ?_, ?_⟩, ⟨?_, ?_, ?_, ?_⟩, ⟨?_, ?_, ?_, ?_⟩,
    ⟨?_, ?_, ?_, ?_⟩, ⟨?_, ?_, ?_, ?_⟩, ⟨?_, ?_, ?_, ?_, hpos⟩⟩ <;>
    (simp [rate_limit, redisGetCount, redisIncr, redisExpire, redisTTL,
      entryAlive, getHeader_setHeader_same, getHeader_setHeader_other,
      h2, h3, h4, h5, h6, hpos]
     try rfl)

/-- C6 witness with all six requests at the window-opening instant. -/
theorem rate_limit_window_C6_witness :
    ((0 : Int) < 0 + 60) ∧
    (((rate_limit true true (some 5) 60 100 0
          ⟨200, "ok", "application/json", []⟩ none).store =
        some ⟨1, some ((0 : Int) + 60)⟩ ∧
      (rate_limit true true (some 5) 60 100 0
          ⟨200, "ok", "application/json", []⟩ none).innerCalled = true ∧
      getHeader (rate_limit true true (some 5) 60 100 0
          ⟨200, "ok", "application/json", []⟩ none).resp.headers
        "X-RateLimit-Remaining" = some "4" ∧
      (rate_limit true true (some 5) 60 100 0
          ⟨200, "ok", "application/json", []⟩ none).resp.body =
        (⟨200, "ok", "application/json", []⟩ : Resp).body) ∧
    ((rate_limit true true (some 5) 60 100 0
          ⟨200, "ok", "application/json", []⟩
          (some ⟨1, some ((0 : Int) + 60)⟩)).store =
        some ⟨2, some ((0 : Int) + 60)⟩ ∧
      (rate_limit true true (some 5) 60 100 0
          ⟨200, "ok", "application/json", []⟩
          (some ⟨1, some ((0 : Int) + 60)⟩)).innerCalled = true ∧
      getHeader (rate_limit true true (some 5) 60 100 0
          ⟨200, "ok", "application/json", []⟩
          (some ⟨1, some ((0 : Int) + 60)⟩)).resp.headers
        "X-RateLimit-Remaining" = some "3" ∧
      (rate_limit true true (some 5) 60 100 0
          ⟨200, "ok", "application/json", []⟩
          (some ⟨1, some ((0 : Int) + 60)⟩)).resp.body =
        (⟨200, "ok", "application/json", []⟩ : Resp).body) ∧
    ((rate_limit true true (some 5) 60 100 0
          ⟨200, "ok", "application/json", []⟩
          (some ⟨2, some ((0 : Int) + 60)⟩)).store =
        some ⟨3, some ((0 : Int) + 60)⟩ ∧
      (rate_limit true true (some 5) 60 100 0
          ⟨200, "ok", "application/json", []⟩
          (some ⟨2, some ((0 : Int) + 60)⟩)).innerCalled = true ∧
      getHeader (rate_limit true true (some 5) 60 100 0
          ⟨200, "ok", "application/json", []⟩
          (some ⟨2, some ((0 : Int) + 60)⟩)).resp.headers
        "X-RateLimit-Remaining" = some "2" ∧
      (rate_limit true true (some 5) 60 100 0
          ⟨200, "ok", "application/json", []⟩
          (some ⟨2, some ((0 : Int) + 60)⟩)).resp.body =
        (⟨200, "ok", "application/json", []⟩ : Resp).body) ∧
    ((rate_limit true true (some 5) 60 100 0
          ⟨200, "ok", "application/json", []⟩
          (some ⟨3, some ((0 : Int) + 60)⟩)).store =
        some ⟨4, some ((0 : Int) + 60)⟩ ∧
      (rate_limit true true (some 5) 60 100 0
          ⟨200, "ok", "application/json", []⟩
          (some ⟨3, some ((0 : Int) + 60)⟩)).innerCalled = true ∧
      getHeader (rate_limit true true (some 5) 60 100 0
          ⟨200, "ok", "application/json", []⟩
          (some ⟨3, some ((0 : Int) + 60)⟩)).resp.headers
        "X-RateLimit-Remaining" = some "1" ∧
      (rate_limit true true (some 5) 60 100 0
          ⟨200, "ok", "application/json", []⟩
          (some ⟨3, some ((0 : Int) + 60)⟩)).resp.body =
        (⟨200, "ok", "application/json", []⟩ : Resp).body) ∧
    ((rate_limit true true (some 5) 60 100 0
          ⟨200, "ok", "application/json", []⟩
          (some ⟨4, some ((0 : Int) + 60)⟩)).store =
        some ⟨5, some ((0 : Int) + 60)⟩ ∧
      (rate_limit true true (some 5) 60 100 0
          ⟨200, "ok", "application/json", []⟩
          (some ⟨4, some ((0 : Int) + 60)⟩)).innerCalled = true ∧
      getHeader (rate_limit true true (some 5) 60 100 0
          ⟨200, "ok", "application/json", []⟩
          (some ⟨4, some ((0 : Int) + 60)⟩)).resp.headers
        "X-RateLimit-Remaining" = some "0" ∧
      (rate_limit true true (some 5) 60 100 0
          ⟨200, "ok", "application/json", []⟩
          (some ⟨4, some ((0 : Int) + 60)⟩)).resp.body =
        (⟨200, "ok", "application/json", []⟩ : Resp).body) ∧
    ((rate_limit true true (some 5) 60 100 0
          ⟨200, "ok", "application/json", []⟩
          (some ⟨5, some ((0 : Int) + 60)⟩)).innerCalled = false ∧
      (rate_limit true true (some 5) 60 100 0
          ⟨200, "ok", "application/json", []⟩
          (some ⟨5, some ((0 : Int) + 60)⟩)).resp.status = 429 ∧
      getHeader (rate_limit true true (some 5) 60 100 0
          ⟨200, "ok", "application/json", []⟩
          (some ⟨5, some ((0 : Int) + 60)⟩)).resp.headers
        "X-RateLimit-Remaining" = some "0" ∧
      getHeader (rate_limit true true (some 5) 60 100 0
          ⟨200, "ok", "application/json", []⟩
          (some ⟨5, some ((0 : Int) + 60)⟩)).resp.headers "Retry-After" =
        some (toString ((0 : Int) + 60 - 0)) ∧
      (0 : Int) < 0 + 60 - 0)) :=
  ⟨by decide,
    rate_limit_window_C6 0 0 0 0 0 0 ⟨200, "ok", "application/json", []⟩
      (by decide) (by decide) (by decide) (by decide) (by decide)⟩

/-- C1 (amended): every capture group of a successfully compiled route
carries a fragment obtained from the ParameterType registry, and a path
produced by substituting valid values for the placeholders always matches
the compiled route; the captured parameters are named after the groups, are
themselves valid values, and substitute back to the very same path — but
they need not equal the substituted values when the template is ambiguous
(see the counterexample). -/
theorem compile_roundtrip_C1 (template : List Char) (segs : List Seg)
    (hc : compileRoute template = Except.ok segs)
    (vals : List (List Char)) (s : List Char)
    (hv : validVals segs vals = true) (hr : render segs vals = some s) :
    (∀ n p, Seg.var n p ∈ segs → ∃ ty, patternFunc ty = some p) ∧
    ∃ caps, gmatch segs s = some caps ∧
      caps.map Prod.fst = varNames segs ∧
      validVals segs (caps.map Prod.snd) = true ∧
      render segs (caps.map Prod.snd) = some s := by
  constructor
  · intro n p hm
    have hok : segsOfRaw (scanTemplate template) = Except.ok segs := by
      simp only [compileRoute, convert_template_to_regex] at hc
      cases h0 : segsOfRaw (scanTemplate template) with
      | error e =>
          rw [h0] at hc
          simp at hc
      | ok segs0 =>
          rw [h0] at hc
          have hc2 : (if (varNames segs0).Nodup then Except.ok segs0
              else Except.error ConfigurationError.duplicatePlaceholder) =
              Except.ok segs := hc
          by_cases hn : (varNames segs0).Nodup
          · rw [if_pos hn] at hc2
            injection hc2 with h1
            rw [h1]
          · rw [if_neg hn] at hc2
            simp at hc2
    exact segsOfRaw_vars_from_registry _ _ hok n p hm
  · have hsome := gmatchAux_complete (segs.length + 1) segs vals s
      (by omega) hv hr
    obtain ⟨caps, hcaps⟩ := Option.isSome_iff_exists.mp hsome
    have hgm : gmatch segs s = some caps := hcaps
    obtain ⟨ha, hb, hd⟩ := gmatchAux_sound (segs.length + 1) segs s caps hgm
    exact ⟨caps, hgm, ha, hb, hd⟩

/-- C1 counterexample: compiling the registered template `<a><b>` succeeds,
the values `x` and `yz` are valid for its placeholders and substitute to
the path `xyz`, which matches the route — but the greedy engine captures
`a = xy` and `b = z`, not the substituted values, refuting "yields exactly
those substituted values back as the captured parameters". -/
theorem compile_roundtrip_C1_counterexample :
    compileRoute "<a><b>".toList =
      Except.ok [Seg.var "a".toList ParamPat.basic,
        Seg.var "b".toList ParamPat.basic] ∧
    validVals [Seg.var "a".toList ParamPat.basic,
        Seg.var "b".toList ParamPat.basic] ["x".toList, "yz".toList] = true ∧
    render [Seg.var "a".toList ParamPat.basic,
        Seg.var "b".toList ParamPat.basic] ["x".toList, "yz".toList] =
      some "xyz".toList ∧
    gmatch [Seg.var "a".toList ParamPat.basic,
        Seg.var "b".toList ParamPat.basic] "xyz".toList =
      some [("a".toList, "xy".toList), ("b".toList, "z".toList)] ∧
    [("a".toList, "xy".toList), ("b".toList, "z".toList)] ≠
      [("a".toList, "x".toList), ("b".toList, "yz".toList)] :=
  ⟨rfl, by decide, by decide, by decide, by decide⟩

/-- C1 witness: the template `/users/<id>` with the value `abc`. -/
theorem compile_roundtrip_C1_witness :
    compileRoute "/users/<id>".toList =
      Except.ok [Seg.lit "/users/".toList,
        Seg.var "id".toList ParamPat.basic] ∧
    validVals [Seg.lit "/users/".toList, Seg.var "id".toList ParamPat.basic]
      ["abc".toList] = true ∧
    render [Seg.lit "/users/".toList, Seg.var "id".toList ParamPat.basic]
      ["abc".toList] = some "/users/abc".toList ∧
    ((∀ n p, Seg.var n p ∈
        [Seg.lit "/users/".toList, Seg.var "id".toList ParamPat.basic] →
        ∃ ty, patternFunc ty = some p) ∧
      ∃ caps, gmatch [Seg.lit "/users/".toList,
          Seg.var "id".toList ParamPat.basic] "/users/abc".toList =
          some caps ∧
        caps.map Prod.fst =
          varNames [Seg.lit "/users/".toList,
            Seg.var "id".toList ParamPat.basic] ∧
        validVals [Seg.lit "/users/".toList,
          Seg.var "id".toList ParamPat.basic] (caps.map Prod.snd) = true ∧
        render [Seg.lit "/users/".toList, Seg.var "id".toList ParamPat.basic]
          (caps.map Prod.snd) = some "/users/abc".toList) :=
  ⟨rfl, by decide, by decide,
    compile_roundtrip_C1 "/users/<id>".toList
      [Seg.lit "/users/".toList, Seg.var "id".toList ParamPat.basic] rfl
      ["abc".toList] "/users/abc".toList (by decide) (by decide)⟩

/-- C2 (amended): resolution scans the routes in registration order and
selects the first route whose pattern matches the path AND whose allowed
methods contain the request method; an earlier-registered route whose
pattern matches the path but not the method is skipped rather than ending
the scan (it only forces the MethodNotAllowed outcome when no route accepts
both); among routes matching both, the earliest registered wins regardless
of specificity. -/
theorem find_route_order_C2 (routes : List Route) (req : RouterReq) :
    find_route routes req =
      match firstAcceptable routes req with
      | some r =>
          FindResult.found r.handler
            ((gmatch r.pattern req.path_info).getD []) r.options
      | none =>
          if anyPathMatch routes req then FindResult.methodNotAllowed []
          else FindResult.notFound := by
  rw [find_route, findRouteAux_eq]
  simp

/-- C2 counterexample: two registered routes both match the path `/x`; the
earlier one allows only POST.  For `GET /x` the code selects the LATER
route (handler 2) although the pattern of the earlier route matches the
path — refuting "the first route whose pattern structurally matches the
request path wins regardless of the request method; no later-registered
route can be selected once the pattern of an earlier route matches the
path". -/
theorem find_route_order_C2_counterexample :
    addRoute [] "/x".toList ["POST"] 1 [] =
      Except.ok [⟨[Seg.lit "/x".toList], 1, ["POST"], "/x".toList, []⟩] ∧
    addRoute [⟨[Seg.lit "/x".toList], 1, ["POST"], "/x".toList, []⟩]
        "/x".toList ["GET"] 2 [] =
      Except.ok [⟨[Seg.lit "/x".toList], 1, ["POST"], "/x".toList, []⟩,
        ⟨[Seg.lit "/x".toList], 2, ["GET"], "/x".toList, []⟩] ∧
    pathMatches ⟨[Seg.lit "/x".toList], 1, ["POST"], "/x".toList, []⟩
      ⟨"/x".toList, "GET"⟩ = true ∧
    find_route
        [⟨[Seg.lit "/x".toList], 1, ["POST"], "/x".toList, []⟩,
          ⟨[Seg.lit "/x".toList], 2, ["GET"], "/x".toList, []⟩]
        ⟨"/x".toList, "GET"⟩ =
      FindResult.found 2 [] [] :=
  ⟨rfl, rfl, by decide, by decide⟩

/-- C3 (amended): when the path matches at least one registered route but
no path-matching route allows the request method, resolution fails with
MethodNotAllowed — but the raised report carries NO allowed-method
information (the bare `exc.HTTPMethodNotAllowed` is raised; the union of
the allowed-method sets is never collected). -/
theorem find_route_405_report_C3 (routes : List Route) (req : RouterReq)
    (hmatch : anyPathMatch routes req = true)
    (hno : ∀ r ∈ routes, pathMatches r req = true → req.method ∉ r.methods) :
    find_route routes req = FindResult.methodNotAllowed [] := by
  have hnone : firstAcceptable routes req = none := by
    apply List.find?_eq_none.mpr
    intro r hr
    simp only [Bool.and_eq_true, decide_eq_true_eq, not_and]
    intro hp
    exact hno r hr hp
  rw [find_route, findRouteAux_eq, hnone]
  simp [hmatch]

/-- C3 counterexample: two routes matching `/y` allow POST and PUT; for
`GET /y` the union of the allowed-method sets of path-matching routes is
`[POST, PUT]`, but the raised MethodNotAllowed carries an empty report, so
the report does not contain the union. -/
theorem find_route_405_report_C3_counterexample :
    find_route
        [⟨[Seg.lit "/y".toList], 1, ["POST"], "/y".toList, []⟩,
          ⟨[Seg.lit "/y".toList], 2, ["PUT"], "/y".toList, []⟩]
        ⟨"/y".toList, "GET"⟩ = FindResult.methodNotAllowed [] ∧
    unionAllowedMethods
        [⟨[Seg.lit "/y".toList], 1, ["POST"], "/y".toList, []⟩,
          ⟨[Seg.lit "/y".toList], 2, ["PUT"], "/y".toList, []⟩]
        ⟨"/y".toList, "GET"⟩ = ["POST", "PUT"] ∧
    "POST" ∉ ([] : List String) :=
  ⟨by decide, by decide, by decide⟩

/-- C3 witness: the POST/PUT routes of the counterexample, resolved for
GET. -/
theorem find_route_405_report_C3_witness :
    anyPathMatch
        [⟨[Seg.lit "/z".toList], 1, ["POST"], "/z".toList, []⟩,
          ⟨[Seg.lit "/z".toList], 2, ["PUT"], "/z".toList, []⟩]
        ⟨"/z".toList, "GET"⟩ = true ∧
    find_route
        [⟨[Seg.lit "/z".toList], 1, ["POST"], "/z".toList, []⟩,
          ⟨[Seg.lit "/z".toList], 2, ["PUT"], "/z".toList, []⟩]
        ⟨"/z".toList, "GET"⟩ = FindResult.methodNotAllowed [] :=
  ⟨by decide,
    find_route_405_report_C3
      [⟨[Seg.lit "/z".toList], 1, ["POST"], "/z".toList, []⟩,
        ⟨[Seg.lit "/z".toList], 2, ["PUT"], "/z".toList, []⟩]
      ⟨"/z".toList, "GET"⟩ (by decide) (by decide)⟩

/-- C4: registering a template that contains a placeholder with an unknown
type name, or two placeholders with the same name, fails inside
`AdvancedRouter.add` — at registration time, i.e. at startup, before any
request is routed — with a configuration error, and no route is appended
(the unknown type raises from `convert_template_to_regex`, the duplicate
name from `re.compile`). -/
theorem register_invalid_C4 (routes : List Route) (template : List Char)
    (methods : List String) (handler : Nat)
    (options : List (String × String))
    (hbad : (scanTemplate template).any rawUnknown = true ∨
      ¬ (rawVarNames (scanTemplate template)).Nodup) :
    ∃ e, addRoute routes template methods handler options =
      Except.error e := by
  rcases hbad with h | h
  · obtain ⟨e, he⟩ := segsOfRaw_error_of_unknown _ h
    exact ⟨e,
      by simp [addRoute, compileRoute, convert_template_to_regex, he]⟩
  · cases h0 : segsOfRaw (scanTemplate template) with
    | error e =>
        exact ⟨e,
          by simp [addRoute, compileRoute, convert_template_to_regex, h0]⟩
    | ok segs =>
        refine ⟨ConfigurationError.duplicatePlaceholder, ?_⟩
        have hnames := segsOfRaw_names _ _ h0
        have hcomp : compileRoute template =
            Except.error ConfigurationError.duplicatePlaceholder := by
          simp only [compileRoute, convert_template_to_regex, h0]
          rw [if_neg (by rw [hnames]; exact h)]
        simp [addRoute, hcomp]

/-- C4 witness: an unknown type name and a duplicated placeholder name. -/
theorem register_invalid_C4_witness :
    ((scanTemplate "/u/<a:zzz>".toList).any rawUnknown = true ∨
      ¬ (rawVarNames (scanTemplate "/u/<a:zzz>".toList)).Nodup) ∧
    (∃ e, addRoute [] "/u/<a:zzz>".toList defaultMethods 1 [] =
      Except.error e) ∧
    ((scanTemplate "/u/<a>/<a>".toList).any rawUnknown = true ∨
      ¬ (rawVarNames (scanTemplate "/u/<a>/<a>".toList)).Nodup) ∧
    (∃ e, addRoute [] "/u/<a>/<a>".toList defaultMethods 2 [] =
      Except.error e) :=
  ⟨Or.inl (by decide),
    register_invalid_C4 [] "/u/<a:zzz>".toList defaultMethods 1 []
      (Or.inl (by decide)),
    Or.inr (by decide),
    register_invalid_C4 [] "/u/<a>/<a>".toList defaultMethods 2 []
      (Or.inr (by decide))⟩

/-- C5: when the path matches at least one registered route but the method
is unsupported by every path-matching route, resolution yields
MethodNotAllowed (the 405 outcome) and never NotFound; when the pattern of
no registered route matches the path, resolution yields NotFound (404). -/
theorem resolve_404_405_C5 (routes : List Route) (req : RouterReq) :
    (anyPathMatch routes req = true →
      (∀ r ∈ routes, pathMatches r req = true → req.method ∉ r.methods) →
      find_route routes req = FindResult.methodNotAllowed [] ∧
        find_route routes req ≠ FindResult.notFound) ∧
    (anyPathMatch routes req = false →
      find_route routes req = FindResult.notFound) := by
  constructor
  · intro hmatch hno
    have hnone : firstAcceptable routes req = none := by
      apply List.find?_eq_none.mpr
      intro r hr
      simp only [Bool.and_eq_true, decide_eq_true_eq, not_and]
      intro hp
      exact hno r hr hp
    rw [find_route, findRouteAux_eq, hnone]
    simp [hmatch]
  · intro hmatch
    have hall : ∀ x ∈ routes, ¬ pathMatches x req = true := by
      simpa [anyPathMatch, List.any_eq_false] using hmatch
    have hnone : firstAcceptable routes req = none := by
      apply List.find?_eq_none.mpr
      intro r hr
      simp [hall r hr]
    rw [find_route, findRouteAux_eq, hnone]
    simp [hmatch]

/-- C5 witness: a 405 at a path-matching POST-only route queried with GET,
and a 404 at a path no route matches. -/
theorem resolve_404_405_C5_witness :
    anyPathMatch [⟨[Seg.lit "/w".toList], 1, ["POST"], "/w".toList, []⟩]
      ⟨"/w".toList, "GET"⟩ = true ∧
    find_route [⟨[Seg.lit "/w".toList], 1, ["POST"], "/w".toList, []⟩]
        ⟨"/w".toList, "GET"⟩ = FindResult.methodNotAllowed [] ∧
    anyPathMatch [⟨[Seg.lit "/w".toList], 1, ["POST"], "/w".toList, []⟩]
      ⟨"/nope".toList, "GET"⟩ = false ∧
    find_route [⟨[Seg.lit "/w".toList], 1, ["POST"], "/w".toList, []⟩]
        ⟨"/nope".toList, "GET"⟩ = FindResult.notFound :=
  ⟨by decide,
    ((resolve_404_405_C5
        [⟨[Seg.lit "/w".toList], 1, ["POST"], "/w".toList, []⟩]
        ⟨"/w".toList, "GET"⟩).1 (by decide) (by decide)).1,
    by decide,
    (resolve_404_405_C5
        [⟨[Seg.lit "/w".toList], 1, ["POST"], "/w".toList, []⟩]
        ⟨"/nope".toList, "GET"⟩).2 (by decide)⟩

end ExtService
